import Mathlib

/-!
# Verification of the device-introspection parsing core (`auditor_unified.py`)

Shallow embedding of the pure parsing/classification functions of the
repository's single source file:

* `extract_strings_from_bytes` (source lines 67-73)
* `get_app_links_state`        (source lines 75-137)
* `analyze_security_posture`   (source lines 139-196)
* `parse_ls_output`            (source lines 198-230)
* the pure core of `read_file_content` (source lines 342-359)

Bytes are modelled as `List Nat` (each `< 256`), text as `List Char`,
and Python stdlib behaviour (`str.split`, `re` patterns, UTF-8 codecs,
`base64`) is embedded by explicit scanners whose semantics follow the
concrete patterns used in the source.
-/

namespace Auditor

/-! ## Basic character classes (ASCII fragment of Python's `\s`, `\w`, `\d`) -/

/-- Python `\s` restricted to ASCII: space, tab, newline, carriage return,
vertical tab, form feed. -/
def isPySpace (c : Char) : Bool :=
  c = ' ' || c = '\t' || c = '\n' || c = '\r' || c = '\x0b' || c = '\x0c'

/-- Python `\w` restricted to ASCII: `[A-Za-z0-9_]`. -/
def isWordChar (c : Char) : Bool :=
  c.isAlpha || c.isDigit || c = '_'

/-- Characters of the class `[\w\.]`. -/
def isDotWord (c : Char) : Bool :=
  isWordChar c || c = '.'

/-- Characters of the class `[\w\.-]` (domain names). -/
def isDomChar (c : Char) : Bool :=
  isWordChar c || c = '.' || c = '-'

/-! ## Substring search utilities -/

/-- Python's `sub in s` (substring containment). -/
def occurs (sub : List Char) : List Char → Bool
  | [] => sub.isPrefixOf []
  | c :: rest => sub.isPrefixOf (c :: rest) || occurs sub rest

/-- Suffix immediately after the first occurrence of `sep`, if any
(the tail that Python's `s.split(sep, 1)[1]` would return). -/
def afterFirst (sep : List Char) : List Char → Option (List Char)
  | [] => if sep.isPrefixOf ([] : List Char) then some [] else none
  | c :: rest =>
    if sep.isPrefixOf (c :: rest) then some ((c :: rest).drop sep.length)
    else afterFirst sep rest

/-- Index of the first position whose suffix satisfies `p` (used to embed
lazy `(.*?)(alt₁|alt₂|…)` regex spans: the span ends at the earliest
position where one of the alternatives matches). -/
def firstMatchPos (p : List Char → Bool) : List Char → Option Nat
  | [] => if p ([] : List Char) then some 0 else none
  | c :: rest =>
    if p (c :: rest) then some 0
    else (firstMatchPos p rest).map (· + 1)

theorem isPrefixOf_iff {l1 l2 : List Char} : l1.isPrefixOf l2 = true ↔ l1 <+: l2 :=
  List.isPrefixOf_iff_prefix

theorem take_isPre {α : Type} (n : Nat) (l : List α) : l.take n <+: l :=
  List.take_prefix n l

theorem takeWhile_isPre {α : Type} (p : α → Bool) (l : List α) : l.takeWhile p <+: l :=
  List.takeWhile_prefix p

theorem occurs_spec (sub l : List Char) : occurs sub l = true ↔ sub <:+: l := by
  induction l with
  | nil =>
    simp [occurs, isPrefixOf_iff ]
  | cons c rest ih =>
    simp [occurs, isPrefixOf_iff , ih, List.infix_cons_iff]

theorem afterFirst_isSome_iff (sep l : List Char) :
    (afterFirst sep l).isSome ↔ occurs sep l = true := by
  induction l with
  | nil =>
    simp only [afterFirst, occurs]
    split <;> simp_all
  | cons c rest ih =>
    simp only [afterFirst, occurs]
    split <;> simp_all

/-! ## Sorting with deduplication (Python `sorted(list(set(x)))`) -/

/-- Insert a string into a sorted, duplicate-free list, keeping it sorted
and dropping the element if already present. -/
def insertSorted (s : String) : List String → List String
  | [] => [s]
  | t :: rest =>
    if s = t then t :: rest
    else if s < t then s :: t :: rest
    else t :: insertSorted s rest

/-- Embeds Python's `sorted(list(set(xs)))` for lists of strings. -/
def sortedDedup (xs : List String) : List String :=
  xs.foldr insertSorted []

theorem mem_insertSorted {s t : String} {l : List String} :
    t ∈ insertSorted s l → t = s ∨ t ∈ l := by
  induction l with
  | nil => simp [insertSorted]
  | cons u rest ih =>
    simp only [insertSorted]
    split
    · intro h; right; exact h
    · split
      · intro h
        rcases List.mem_cons.mp h with h | h
        · left; exact h
        · right; exact h
      · intro h
        rcases List.mem_cons.mp h with h | h
        · right; simp [h]
        · rcases ih h with h | h
          · left; exact h
          · right; simp [h]

theorem mem_sortedDedup {t : String} {xs : List String} :
    t ∈ sortedDedup xs → t ∈ xs := by
  induction xs with
  | nil => simp [sortedDedup]
  | cons x rest ih =>
    intro h
    rcases mem_insertSorted (s := x) (l := sortedDedup rest) h with h | h
    · simp [h]
    · simp [ih h]

/-! ## Base64 (Python `base64.b64encode`, source line 349) -/

/-- The base64 alphabet. -/
def b64chars : List Char :=
  "ABCDEFGHIJKLMNOPQRSTUVWXYZabcdefghijklmnopqrstuvwxyz0123456789+/".data

/-- Character for a 6-bit group. -/
def b64enc (n : Nat) : Char := b64chars.getD n '='

/-- 6-bit group for a base64 character. -/
def b64dec (c : Char) : Nat := b64chars.indexOf c

/-- `base64.b64encode`: standard base64 with `=` padding, 8-bit bytes in,
6-bit groups out. -/
def b64encode : List Nat → List Char
  | a :: b :: c :: rest =>
    b64enc (a / 4) :: b64enc (a % 4 * 16 + b / 16) ::
    b64enc (b % 16 * 4 + c / 64) :: b64enc (c % 64) :: b64encode rest
  | [a, b] =>
    [b64enc (a / 4), b64enc (a % 4 * 16 + b / 16), b64enc (b % 16 * 4), '=']
  | [a] =>
    [b64enc (a / 4), b64enc (a % 4 * 16), '=', '=']
  | [] => []

/-- Standard base64 decoder (the inverse the spec's `decode(encodedBlob)`
refers to). -/
def b64decode : List Char → List Nat
  | c1 :: c2 :: c3 :: c4 :: rest =>
    if c3 = '=' then
      [b64dec c1 * 4 + b64dec c2 / 16]
    else if c4 = '=' then
      [b64dec c1 * 4 + b64dec c2 / 16, b64dec c2 % 16 * 16 + b64dec c3 / 4]
    else
      (b64dec c1 * 4 + b64dec c2 / 16) ::
      (b64dec c2 % 16 * 16 + b64dec c3 / 4) ::
      ((b64dec c3 % 4 * 64 + b64dec c4) :: b64decode rest)
  | _ => []

theorem b64dec_b64enc : ∀ n : Nat, n < 64 → b64dec (b64enc n) = n ∧ b64enc n ≠ '=' := by
  decide

theorem mulAddDiv (x y k : Nat) (hk : 0 < k) (hy : y < k) : (x * k + y) / k = x := by
  rw [add_comm, mul_comm, Nat.add_mul_div_left y x hk, Nat.div_eq_of_lt hy, Nat.zero_add]

theorem mulAddMod (x y k : Nat) (hy : y < k) : (x * k + y) % k = y := by
  rw [add_comm, mul_comm, Nat.add_mul_mod_self_left, Nat.mod_eq_of_lt hy]

theorem b64decode_b64encode (bs : List Nat) (h : ∀ b ∈ bs, b < 256) :
    b64decode (b64encode bs) = bs := by
  induction bs using b64encode.induct with
  | case1 a b c rest ih =>
    have ha : a < 256 := h a (by simp)
    have hb : b < 256 := h b (by simp)
    have hc : c < 256 := h c (by simp)
    have h1 := b64dec_b64enc (a / 4) (by omega)
    have h2 := b64dec_b64enc (a % 4 * 16 + b / 16) (by omega)
    have h3 := b64dec_b64enc (b % 16 * 4 + c / 64) (by omega)
    have h4 := b64dec_b64enc (c % 64) (by omega)
    have ihr := ih (fun x hx => h x (by simp [hx]))
    have e1 : (a % 4 * 16 + b / 16) / 16 = a % 4 := mulAddDiv _ _ _ (by omega) (by omega)
    have e2 : (a % 4 * 16 + b / 16) % 16 = b / 16 := mulAddMod _ _ _ (by omega)
    have e3 : (b % 16 * 4 + c / 64) / 4 = b % 16 := mulAddDiv _ _ _ (by omega) (by omega)
    have e4 : (b % 16 * 4 + c / 64) % 4 = c / 64 := mulAddMod _ _ _ (by omega)
    simp [b64encode, b64decode, h1.1, h2.1, h3.1, h4.1, h3.2, h4.2, ihr, e1, e2, e3, e4]
    omega
  | case2 a b =>
    have ha : a < 256 := h a (by simp)
    have hb : b < 256 := h b (by simp)
    have h1 := b64dec_b64enc (a / 4) (by omega)
    have h2 := b64dec_b64enc (a % 4 * 16 + b / 16) (by omega)
    have h3 := b64dec_b64enc (b % 16 * 4) (by omega)
    have e1 : (a % 4 * 16 + b / 16) / 16 = a % 4 := mulAddDiv _ _ _ (by omega) (by omega)
    have e2 : (a % 4 * 16 + b / 16) % 16 = b / 16 := mulAddMod _ _ _ (by omega)
    have e3 : b % 16 * 4 / 4 = b % 16 := Nat.mul_div_cancel _ (by omega)
    simp [b64encode, b64decode, h1.1, h2.1, h3.1, h3.2, e1, e2, e3]
    omega
  | case3 a =>
    have ha : a < 256 := h a (by simp)
    have h1 := b64dec_b64enc (a / 4) (by omega)
    have h2 := b64dec_b64enc (a % 4 * 16) (by omega)
    have e1 : a % 4 * 16 / 16 = a % 4 := Nat.mul_div_cancel _ (by omega)
    simp [b64encode, b64decode, h1.1, h2.1, e1]
    omega
  | case4 => simp [b64encode, b64decode]

/-! ## UTF-8 decoding (Python `bytes.decode('utf-8', errors=...)`) -/

/-- A UTF-8 continuation byte `0x80..0xBF`. -/
def isCont (b : Nat) : Bool := 0x80 ≤ b && b ≤ 0xBF

/-- Valid second byte for a three-byte sequence with lead `b`
(`E0: A0..BF`, `ED: 80..9F`, otherwise `80..BF`). -/
def lead3ContOk (b b2 : Nat) : Bool :=
  if b = 0xE0 then 0xA0 ≤ b2 && b2 ≤ 0xBF
  else if b = 0xED then 0x80 ≤ b2 && b2 ≤ 0x9F
  else isCont b2

/-- Valid second byte for a four-byte sequence with lead `b`
(`F0: 90..BF`, `F4: 80..8F`, otherwise `80..BF`). -/
def lead4ContOk (b b2 : Nat) : Bool :=
  if b = 0xF0 then 0x90 ≤ b2 && b2 ≤ 0xBF
  else if b = 0xF4 then 0x80 ≤ b2 && b2 ≤ 0x8F
  else isCont b2

/-- UTF-8 decoder with the maximal-subpart error handling CPython uses:
each maximal invalid subpart contributes `repl` to the output
(`repl = [0xFFFD]` embeds `errors='replace'`, `repl = []` embeds
`errors='ignore'`).  Output is the list of decoded code points.  The
`fuel` argument only makes the recursion structural; every step consumes
at least one byte, so `fuel = length` (as supplied by `utf8Decode`)
never runs out. -/
def utf8DecodeGo (repl : List Nat) : Nat → List Nat → List Nat
  | _, [] => []
  | 0, _ :: _ => []
  | fuel + 1, b :: rest =>
    if b ≤ 0x7F then b :: utf8DecodeGo repl fuel rest
    else if 0xC2 ≤ b && b ≤ 0xDF then
      match rest[0]? with
      | some b2 =>
        if isCont b2 then (b % 32 * 64 + b2 % 64) :: utf8DecodeGo repl fuel (rest.drop 1)
        else repl ++ utf8DecodeGo repl fuel rest
      | none => repl
    else if 0xE0 ≤ b && b ≤ 0xEF then
      match rest[0]? with
      | some b2 =>
        if lead3ContOk b b2 then
          match rest[1]? with
          | some b3 =>
            if isCont b3 then
              (b % 16 * 4096 + b2 % 64 * 64 + b3 % 64) :: utf8DecodeGo repl fuel (rest.drop 2)
            else repl ++ utf8DecodeGo repl fuel (rest.drop 1)
          | none => repl
        else repl ++ utf8DecodeGo repl fuel rest
      | none => repl
    else if 0xF0 ≤ b && b ≤ 0xF4 then
      match rest[0]? with
      | some b2 =>
        if lead4ContOk b b2 then
          match rest[1]? with
          | some b3 =>
            if isCont b3 then
              match rest[2]? with
              | some b4 =>
                if isCont b4 then
                  (b % 8 * 262144 + b2 % 64 * 4096 + b3 % 64 * 64 + b4 % 64) ::
                    utf8DecodeGo repl fuel (rest.drop 3)
                else repl ++ utf8DecodeGo repl fuel (rest.drop 2)
              | none => repl
            else repl ++ utf8DecodeGo repl fuel (rest.drop 1)
          | none => repl
        else repl ++ utf8DecodeGo repl fuel rest
      | none => repl
    else repl ++ utf8DecodeGo repl fuel rest

/-- `bytes.decode('utf-8', errors=...)` on a byte list. -/
def utf8Decode (repl : List Nat) (l : List Nat) : List Nat :=
  utf8DecodeGo repl l.length l

/-! ## Printable-ASCII runs (`re.findall(r"[ -~]{min,}", text)`) -/

/-- Printable ASCII, the regex class `[ -~]` = `0x20..0x7E`. -/
def isPrintableAscii (c : Nat) : Bool := 0x20 ≤ c && c ≤ 0x7E

/-- Maximal runs of printable-ASCII code points, in order of appearance
(`cur` accumulates the current run in reverse). -/
def asciiRunsAux (cur : List Nat) : List Nat → List (List Nat)
  | [] => if cur.isEmpty then [] else [cur.reverse]
  | c :: rest =>
    if isPrintableAscii c then asciiRunsAux (c :: cur) rest
    else if cur.isEmpty then asciiRunsAux [] rest
    else cur.reverse :: asciiRunsAux [] rest

/-- All maximal printable-ASCII runs of a code-point sequence. -/
def asciiRuns (l : List Nat) : List (List Nat) := asciiRunsAux [] l

/-- `extract_strings_from_bytes` (source lines 67-73): decode the bytes
with `errors='ignore'` (invalid bytes are dropped), then collect the
maximal printable-ASCII runs of length `≥ min_length`. -/
def extract_strings_from_bytes (data : List Nat) (min_length : Nat := 4) :
    List (List Nat) :=
  (asciiRuns (utf8Decode [] data)).filter (fun r => min_length ≤ r.length)

/-! ## `read_file_content` (source lines 342-359), pure core -/

/-- The JSON payload assembled by `read_file_content` once the raw bytes
are in hand: `size`, lossy-decoded `content` (code points,
`errors='replace'`), extracted `strings`, and the base64 `base64` field. -/
structure ReadResult where
  size : Nat
  content : List Nat
  strings : List (List Nat)
  base64 : List Char
  deriving DecidableEq

/-- Pure core of the `/files/{device_id}/read` endpoint (source lines
346-357): everything after the raw bytes have been fetched. -/
def read_file_content (raw_bytes : List Nat) : ReadResult where
  size := raw_bytes.length
  content := utf8Decode [0xFFFD] raw_bytes
  strings := extract_strings_from_bytes raw_bytes
  base64 := b64encode raw_bytes

/-! ## Claims C1 and C4 -/

/-- C1 (counterexample): on the bytes `[0x68,0x69,0xFF,0x74,0x68,0x65,0x72,0x65]`
the claim says `extract_strings_from_bytes` (minimum length 4) returns the
empty list; in fact it returns `["hithere"]`, because the source decodes
with `errors='ignore'`, which drops the invalid byte `0xFF` and merges the
two printable runs. -/
theorem c1_counterexample :
    extract_strings_from_bytes [0x68, 0x69, 0xFF, 0x74, 0x68, 0x65, 0x72, 0x65]
      = [[0x68, 0x69, 0x74, 0x68, 0x65, 0x72, 0x65]]
    ∧ extract_strings_from_bytes [0x68, 0x69, 0xFF, 0x74, 0x68, 0x65, 0x72, 0x65] ≠ [] := by
  decide

/-- C1 (amended): for the 8-byte input `[0x68,0x69,0xFF,0x74,0x68,0x65,0x72,0x65]`,
the file-read operation produces a `textView` containing exactly one
replacement marker `U+FFFD` between "hi" (`0x68 0x69`) and "there"
(`0x74 0x68 0x65 0x72 0x65`); `extract_strings_from_bytes`, which decodes
with `errors='ignore'` (dropping the invalid byte rather than interrupting
the run), returns the single string "hithere"; the size is the exact byte
count 8 and the base64 blob decodes back to the original bytes. -/
theorem c1_amended :
    (read_file_content [0x68, 0x69, 0xFF, 0x74, 0x68, 0x65, 0x72, 0x65]).content
      = [0x68, 0x69, 0xFFFD, 0x74, 0x68, 0x65, 0x72, 0x65]
    ∧ (read_file_content [0x68, 0x69, 0xFF, 0x74, 0x68, 0x65, 0x72, 0x65]).strings
      = [[0x68, 0x69, 0x74, 0x68, 0x65, 0x72, 0x65]]
    ∧ (read_file_content [0x68, 0x69, 0xFF, 0x74, 0x68, 0x65, 0x72, 0x65]).size = 8
    ∧ b64decode (read_file_content [0x68, 0x69, 0xFF, 0x74, 0x68, 0x65, 0x72, 0x65]).base64
      = [0x68, 0x69, 0xFF, 0x74, 0x68, 0x65, 0x72, 0x65] := by
  decide

/-- C4: for every byte sequence `B` (bytes `< 256`, no validity-as-text
assumption), decoding the base64 field produced by the file-read operation
yields exactly `B`, and the reported size is the exact byte count of `B`;
this is independent of the lossy `content` view. -/
theorem c4_roundtrip (B : List Nat) (h : ∀ b ∈ B, b < 256) :
    b64decode (read_file_content B).base64 = B
    ∧ (read_file_content B).size = B.length :=
  ⟨b64decode_b64encode B h, rfl⟩

/-- Witness for C4 at the concrete byte sequence `[0x00, 0xFE, 0x0A, 0x80]`,
which is not valid UTF-8 text. -/
theorem c4_roundtrip_witness :
    b64decode (read_file_content [0x00, 0xFE, 0x0A, 0x80]).base64 = [0x00, 0xFE, 0x0A, 0x80]
    ∧ (read_file_content [0x00, 0xFE, 0x0A, 0x80]).size = [0x00, 0xFE, 0x0A, 0x80].length :=
  c4_roundtrip [0x00, 0xFE, 0x0A, 0x80] (by decide)

/-! ## Generic findall scanner (Python `re.findall` on the concrete
patterns used by the source) -/

/-- Scan left to right; a matcher returns the captured value and the
match length minus one (every match consumes at least one character, as
all patterns in the source do); on failure, advance one position.  `fuel`
only makes the recursion structural; `fuel = length` never runs out. -/
def reFindAllGo {a : Type} (m : List Char -> Option (a × Nat)) :
    Nat -> List Char -> List a
  | _, [] => []
  | 0, _ :: _ => []
  | fuel + 1, c :: rest =>
    match m (c :: rest) with
    | some (v, n) => v :: reFindAllGo m fuel ((c :: rest).drop (n + 1))
    | none => reFindAllGo m fuel rest

/-- All matches of `m` over `l`, left to right, non-overlapping. -/
def reFindAll {a : Type} (m : List Char -> Option (a × Nat)) (l : List Char) : List a :=
  reFindAllGo m l.length l

theorem reFindAllGo_matches_within (m : List Char -> Option (List Char × Nat))
    (hm : ∀ l v n, m l = some (v, n) -> v <+: l) :
    ∀ (fuel : Nat) (l v : List Char), v ∈ reFindAllGo m fuel l -> v <:+: l := by
  intro fuel
  induction fuel with
  | zero => intro l v hv; cases l <;> simp [reFindAllGo] at hv
  | succ fuel ih =>
    intro l v hv
    cases l with
    | nil => simp [reFindAllGo] at hv
    | cons c rest =>
      simp only [reFindAllGo] at hv
      cases hmatch : m (c :: rest) with
      | some p =>
        rw [hmatch] at hv
        rcases List.mem_cons.mp hv with h | h
        · exact (h ▸ hm _ _ _ hmatch).isInfix
        · exact (ih _ v h).trans (List.drop_suffix _ _).isInfix
      | none =>
        rw [hmatch] at hv
        exact (ih _ v hv).trans (List.suffix_cons c rest).isInfix

theorem reFindAll_matches_within (m : List Char -> Option (List Char × Nat))
    (hm : ∀ l v n, m l = some (v, n) -> v <+: l)
    (l v : List Char) (hv : v ∈ reFindAll m l) : v <:+: l :=
  reFindAllGo_matches_within m hm l.length l v hv

/-! ## `get_app_links_state` (source lines 75-137) -/

/-- Decimal digits to a number (Python `int(...)` on a digit string). -/
def natOfDigits (ds : List Char) : Nat :=
  ds.foldl (fun n c => n * 10 + (c.toNat - 48)) 0

/-- The section captured by
`re.search(r"Domain verification state:(.*?)(User 0:|$)", output, re.DOTALL)`
(group 1): from after the first header occurrence up to the first
`User 0:`, or — `$` with no `re.MULTILINE` — up to the end of the text,
excluding one final newline if the text ends with one. -/
def verificationBlock (output : List Char) : Option (List Char) :=
  (afterFirst ("Domain verification state:").data output).map (fun tail =>
    match firstMatchPos (fun l => ("User 0:").data.isPrefixOf l) tail with
    | some i => tail.take i
    | none => if tail.getLast? = some '\n' then tail.dropLast else tail)

/-- Python `output.split("Disabled:")[1]`: the text between the first
occurrence of `Disabled:` and the next occurrence (or the end).  Only
consulted by the source under the guard `"Disabled:\n" in output`, which
guarantees the split has a second element; we return `[]` otherwise. -/
def disabledSection (output : List Char) : List Char :=
  match afterFirst ("Disabled:").data output with
  | some tail =>
    match firstMatchPos (fun l => ("Disabled:").data.isPrefixOf l) tail with
    | some i => tail.take i
    | none => tail
  | none => []

/-- Matcher for `re.findall(r"\s+([\w\.-]+):\s+(\d+)", block)`: at least
one whitespace character, a maximal `[\w.-]` run (the domain), a colon, at
least one whitespace character, a maximal digit run.  Captures
`(domain, digits)`. -/
def domainLineMatcher (l : List Char) : Option ((List Char × List Char) × Nat) :=
  let sp := l.takeWhile isPySpace
  if sp.isEmpty then none else
  let rest1 := l.drop sp.length
  let dom := rest1.takeWhile isDomChar
  if dom.isEmpty then none else
  match rest1.drop dom.length with
  | ':' :: rest2 =>
    let sp2 := rest2.takeWhile isPySpace
    if sp2.isEmpty then none else
    let digits := (rest2.drop sp2.length).takeWhile Char.isDigit
    if digits.isEmpty then none else
    some ((dom, digits), sp.length + dom.length + 1 + sp2.length + digits.length - 1)
  | _ => none

/-- Classification table of source lines 107-118: description and status
for a numeric state code, before the user-disabled override. -/
def classifyCode (code : Nat) : String × String :=
  if code = 1 then ("Verified (Automatic)", "success")
  else if code = 2 then ("Approved (User)", "success")
  else if code = 1024 then ("Legacy/Unverified (1024)", "warning")
  else ("State Code: " ++ toString code, "danger")

/-- One entry of the `domains` list built by `get_app_links_state`.  The
`userDisabled` field embeds the local `is_disabled` flag of source lines
121-123 (the response dict itself carries only the other four keys; the
flag is reflected in `status`/`description`). -/
structure DomainRecord where
  domain : String
  code : Nat
  description : String
  status : String
  userDisabled : Bool
  deriving DecidableEq

/-- `get_app_links_state` (source lines 75-137), after the external
`pm get-app-links` text `output` has been fetched: the `domains` list of
the returned dict (its `raw` field is `output` verbatim, and the outer
`except` is unreachable because every step below is total). -/
def get_app_links_state (output : List Char) : List DomainRecord :=
  match verificationBlock output with
  | none => []
  | some block =>
    (reFindAll domainLineMatcher block).map (fun p =>
      let code := natOfDigits p.2
      let desc := (classifyCode code).1
      let status := (classifyCode code).2
      if occurs ("Disabled:\n").data output && occurs p.1 (disabledSection output) then
        { domain := ⟨p.1⟩, code := code, description := desc ++ " [USER DISABLED]",
          status := "danger", userDisabled := true }
      else
        { domain := ⟨p.1⟩, code := code, description := desc,
          status := status, userDisabled := false })

/-! ## Claims C2, C5, C9 -/

/-- The spec's severity vocabulary for the status strings the code uses:
`success` is exposed as `ok`, `warning` as `caution`, `danger` as
`blocked` (spec sections 3, 4.2, 6). -/
def severityName (s : String) : String :=
  if s = "success" then "ok"
  else if s = "warning" then "caution"
  else if s = "danger" then "blocked"
  else s

/-- Follows the spec's words (table in section 4.2 plus the
user-disabled override): severity as a pure function of the numeric code
and the user-disabled flag. -/
def specSeverity (code : Nat) (disabled : Bool) : String :=
  if disabled then "blocked"
  else if code = 1 then "ok"
  else if code = 2 then "ok"
  else if code = 1024 then "caution"
  else "blocked"

/-- Follows the spec's words: description as a pure function of the
numeric code and the user-disabled flag (table row, plus the fixed
suffix when user-disabled). -/
def specDescription (code : Nat) (disabled : Bool) : String :=
  (if code = 1 then "Verified (Automatic)"
   else if code = 2 then "Approved (User)"
   else if code = 1024 then "Legacy/Unverified (1024)"
   else "State Code: " ++ toString code)
  ++ (if disabled then " [USER DISABLED]" else "")

theorem classifyCode_matches_spec (code : Nat) :
    severityName (classifyCode code).2 = specSeverity code false
    ∧ (classifyCode code).1 = specDescription code false := by
  unfold classifyCode specSeverity specDescription severityName
  by_cases h1 : code = 1 <;> by_cases h2 : code = 2 <;> by_cases h3 : code = 1024 <;>
    simp [h1, h2, h3]

/-- C5: for every domain record produced by `get_app_links_state`,
severity and description are a pure function of the numeric code and the
user-disabled flag, given by the spec's fixed table (code 1 -> ok /
"Verified (Automatic)", code 2 -> ok / "Approved (User)", code 1024 ->
caution / "Legacy/Unverified (1024)", every other code -> blocked /
"State Code: {code}", with the user-disabled override); the status values
exposed upward are exactly the code's three strings `success`/`warning`/
`danger`, i.e. the spec vocabulary `ok`/`caution`/`blocked` under
`severityName`. -/
theorem c5_severity_pure_function (output : List Char) (r : DomainRecord)
    (hr : r ∈ get_app_links_state output) :
    severityName r.status = specSeverity r.code r.userDisabled
    ∧ r.description = specDescription r.code r.userDisabled
    ∧ (r.status = "success" ∨ r.status = "warning" ∨ r.status = "danger") := by
  unfold get_app_links_state at hr
  cases hblock : verificationBlock output with
  | none => rw [hblock] at hr; simp at hr
  | some block =>
    rw [hblock] at hr
    simp only [List.mem_map] at hr
    obtain ⟨p, hp, rfl⟩ := hr
    have h := classifyCode_matches_spec (natOfDigits p.2)
    by_cases hd : (occurs ("Disabled:\n").data output
        && occurs p.1 (disabledSection output)) = true
    · simp only [hd, if_true]
      refine ⟨by simp [severityName, specSeverity], ?_, by simp⟩
      rw [h.2]
      simp [specDescription]
    · rw [Bool.not_eq_true] at hd
      simp only [hd, Bool.false_eq_true, if_false]
      refine ⟨h.1, h.2, ?_⟩
      unfold classifyCode
      by_cases h1 : natOfDigits p.2 = 1 <;> by_cases h2 : natOfDigits p.2 = 2 <;>
        by_cases h3 : natOfDigits p.2 = 1024 <;> simp [h1, h2, h3]

/-- Witness for C5: the record produced for `a.com: 1024`. -/
theorem c5_severity_pure_function_witness :
    severityName ((⟨"a.com", 1024, "Legacy/Unverified (1024)", "warning", false⟩ : DomainRecord)).status
      = specSeverity ((⟨"a.com", 1024, "Legacy/Unverified (1024)", "warning", false⟩ : DomainRecord)).code
          ((⟨"a.com", 1024, "Legacy/Unverified (1024)", "warning", false⟩ : DomainRecord)).userDisabled
    ∧ ((⟨"a.com", 1024, "Legacy/Unverified (1024)", "warning", false⟩ : DomainRecord)).description
      = specDescription 1024 false
    ∧ (((⟨"a.com", 1024, "Legacy/Unverified (1024)", "warning", false⟩ : DomainRecord)).status = "success"
       ∨ ((⟨"a.com", 1024, "Legacy/Unverified (1024)", "warning", false⟩ : DomainRecord)).status = "warning"
       ∨ ((⟨"a.com", 1024, "Legacy/Unverified (1024)", "warning", false⟩ : DomainRecord)).status = "danger") :=
  c5_severity_pure_function ("Domain verification state:\n  a.com: 1024\n").data
    ((⟨"a.com", 1024, "Legacy/Unverified (1024)", "warning", false⟩ : DomainRecord)) (by decide)

/-- C2: whenever a domain of a produced record is listed under the
`Disabled:` marker (the marker followed by a newline occurs, and the
domain occurs in the split-off section after the first marker), the
record's status is `danger` (spec severity `blocked`), its user-disabled
flag is true, and its description is the table description for its code
with the fixed suffix ` [USER DISABLED]` appended — overriding whatever
status the numeric code received from the classification table. -/
theorem c2_disabled_override (output : List Char) (r : DomainRecord)
    (hr : r ∈ get_app_links_state output)
    (hmark : occurs ("Disabled:\n").data output = true)
    (hdom : occurs r.domain.data (disabledSection output) = true) :
    r.status = "danger" ∧ r.userDisabled = true
    ∧ r.description = (classifyCode r.code).1 ++ " [USER DISABLED]" := by
  unfold get_app_links_state at hr
  cases hblock : verificationBlock output with
  | none => rw [hblock] at hr; simp at hr
  | some block =>
    rw [hblock] at hr
    simp only [List.mem_map] at hr
    obtain ⟨p, hp, rfl⟩ := hr
    by_cases hd : (occurs ("Disabled:\n").data output
        && occurs p.1 (disabledSection output)) = true
    · simp [hd]
    · exfalso
      apply hd
      rw [Bool.and_eq_true]
      refine ⟨hmark, ?_⟩
      by_cases hcase : (occurs ("Disabled:\n").data output
          && occurs p.1 (disabledSection output)) = true
      · exact absurd hcase hd
      · rw [Bool.not_eq_true] at hcase
        simp only [hcase, if_false, Bool.false_eq_true] at hdom
        exact hdom

/-- Witness for C2: `shop.example.org` has code 2 (table status
`success`) but is listed under `Disabled:`. -/
theorem c2_disabled_override_witness :
    ((⟨"shop.example.org", 2, "Approved (User) [USER DISABLED]", "danger", true⟩ : DomainRecord)).status = "danger"
    ∧ ((⟨"shop.example.org", 2, "Approved (User) [USER DISABLED]", "danger", true⟩ : DomainRecord)).userDisabled = true
    ∧ ((⟨"shop.example.org", 2, "Approved (User) [USER DISABLED]", "danger", true⟩ : DomainRecord)).description
      = (classifyCode 2).1 ++ " [USER DISABLED]" :=
  c2_disabled_override
    ("Domain verification state:\n  shop.example.org: 2\nDisabled:\n  shop.example.org\n").data
    ((⟨"shop.example.org", 2, "Approved (User) [USER DISABLED]", "danger", true⟩ : DomainRecord))
    (by decide) (by decide) (by decide)

/-- C9: the user-disabled check is substring containment, not exact
domain matching: a produced record's flag equals the conjunction
"`Disabled:` followed by a newline occurs somewhere in the text" and
"the domain name occurs anywhere as a substring of the text between the
first `Disabled:` and the next `Disabled:` (or the end)"
(`disabledSection`).  Consequently, on the concrete input whose disabled
section lists only `sub.example.com`, the record for `example.com` is
marked disabled. -/
theorem c9_substring_containment :
    (∀ (output : List Char) (r : DomainRecord), r ∈ get_app_links_state output →
      r.userDisabled = (occurs ("Disabled:\n").data output
        && occurs r.domain.data (disabledSection output)))
    ∧ get_app_links_state
        ("Domain verification state:\n  example.com: 1\nDisabled:\n  sub.example.com\n").data
      = [(⟨"example.com", 1, "Verified (Automatic) [USER DISABLED]", "danger", true⟩ : DomainRecord)] := by
  constructor
  · intro output r hr
    unfold get_app_links_state at hr
    cases hblock : verificationBlock output with
    | none => rw [hblock] at hr; simp at hr
    | some block =>
      rw [hblock] at hr
      simp only [List.mem_map] at hr
      obtain ⟨p, hp, rfl⟩ := hr
      by_cases hd : (occurs ("Disabled:\n").data output
          && occurs p.1 (disabledSection output)) = true
      · simp [hd]
      · rw [Bool.not_eq_true] at hd
        simp [hd]
  · decide

/-- Witness for C9's universal part, at the same concrete input. -/
theorem c9_substring_containment_witness :
    ((⟨"example.com", 1, "Verified (Automatic) [USER DISABLED]", "danger", true⟩ : DomainRecord)).userDisabled
      = (occurs ("Disabled:\n").data
            ("Domain verification state:\n  example.com: 1\nDisabled:\n  sub.example.com\n").data
        && occurs ((⟨"example.com", 1, "Verified (Automatic) [USER DISABLED]", "danger", true⟩ : DomainRecord)).domain.data
            (disabledSection
              ("Domain verification state:\n  example.com: 1\nDisabled:\n  sub.example.com\n").data)) :=
  c9_substring_containment.1
    ("Domain verification state:\n  example.com: 1\nDisabled:\n  sub.example.com\n").data
    ((⟨"example.com", 1, "Verified (Automatic) [USER DISABLED]", "danger", true⟩ : DomainRecord))
    (by decide)

/-! ## `analyze_security_posture` (source lines 139-196) -/

/-- Leftmost match of `key` followed by at least one `isVal` character
(embeds `re.search(key + r"([cls]+)")` for a literal key and a character
class): the captured value is the maximal `isVal` run after the key. -/
def firstVal (key : List Char) (isVal : Char -> Bool) : List Char -> Option (List Char)
  | [] => none
  | c :: rest =>
    if key.isPrefixOf (c :: rest)
        && (match (c :: rest).drop key.length with
            | v :: _ => isVal v
            | [] => false) then
      some (((c :: rest).drop key.length).takeWhile isVal)
    else firstVal key isVal rest

/-- The alternative `User \d` of the span terminators. -/
def userTermPred (l : List Char) : Bool :=
  ("User ").data.isPrefixOf l
    && (match l.drop 5 with | d :: _ => d.isDigit | [] => false)

/-- Terminators of the requested-permissions span
(`install permissions:|User \d|runtime permissions:`). -/
def reqTermPred (l : List Char) : Bool :=
  ("install permissions:").data.isPrefixOf l || userTermPred l
    || ("runtime permissions:").data.isPrefixOf l

/-- Terminators of the install-permissions span
(`User \d|runtime permissions:`). -/
def installTermPred (l : List Char) : Bool :=
  userTermPred l || ("runtime permissions:").data.isPrefixOf l

/-- Embeds `re.search(header + r"(.*?)(" + terms + r")", raw, re.DOTALL)`
group 1: the text from after the first occurrence of `header` up to the
earliest position where a terminator matches; `none` when the header is
absent or no terminator follows it (end-of-text is not a terminator). -/
def spanAfterHeader (header : List Char) (term : List Char -> Bool)
    (raw : List Char) : Option (List Char) :=
  match afterFirst header raw with
  | none => none
  | some tail =>
    match firstMatchPos term tail with
    | none => none
    | some i => some (tail.take i)

/-- `splitOk R i`: position `i` of `R` can serve as the backtracking
split of `[\w\.]+\.permission\.[\w_]+`: the literal `.permission.`
matches at `i` and at least one word character follows it. -/
def splitOk (R : List Char) (i : Nat) : Bool :=
  (".permission.").data.isPrefixOf (R.drop i)
    && (match R.drop (i + 12) with | c :: _ => isWordChar c | [] => false)

/-- Largest `i` with `1 ≤ i ≤ n` such that `splitOk R i` (the greedy
`[\w\.]+` backtracks from the longest prefix downward). -/
def largestSplit (R : List Char) : Nat -> Option Nat
  | 0 => none
  | n + 1 => if splitOk R (n + 1) then some (n + 1) else largestSplit R n

/-- The alternative `com\.[\w\.]+\.permission\.[\w_]+` of the
requested-permissions pattern (source line 169). -/
def reqComBranch (l : List Char) : Option (List Char × Nat) :=
  if ("com.").data.isPrefixOf l then
    let R := (l.drop 4).takeWhile isDotWord
    match largestSplit R R.length with
    | some i =>
      let W := (R.drop (i + 12)).takeWhile isWordChar
      some (l.take (4 + i + 12 + W.length), 4 + i + 12 + W.length - 1)
    | none => none
  else none

/-- Matcher for
`(android\.permission\.[\w_]+|com\.[\w\.]+\.permission\.[\w_]+)`
(source line 169): the first alternative is tried first, as in Python. -/
def reqPermMatcher (l : List Char) : Option (List Char × Nat) :=
  if ("android.permission.").data.isPrefixOf l then
    let W := (l.drop 19).takeWhile isWordChar
    if W.isEmpty then reqComBranch l
    else some (l.take (19 + W.length), 19 + W.length - 1)
  else reqComBranch l

/-- Matcher for `([\w\.]+\.permission\.[\w\_]+)` (source line 175):
maximal `[\w.]` run at this position, greedy-backtracked around the last
feasible `.permission.`. -/
def dottedMatcher (l : List Char) : Option (List Char × Nat) :=
  let R := l.takeWhile isDotWord
  if R.isEmpty then none else
  match largestSplit R R.length with
  | some i =>
    let W := (R.drop (i + 12)).takeWhile isWordChar
    some (R.take (i + 12 + W.length), i + 12 + W.length - 1)
  | none => none

/-- Matcher for `([\w\.]+\.permission\.[\w\_]+):\s*granted=true`
(source line 172).  Because `:` is outside `[\w.]`, a match must consume
an entire maximal `[\w.]` run `R`; the run must decompose as
`A ++ ".permission." ++ W` with `W` its final dot-free segment, followed
by `:`, optional whitespace, and the literal `granted=true`. -/
def grantedMatcher (l : List Char) : Option (List Char × Nat) :=
  let R := l.takeWhile isDotWord
  if R.isEmpty then none else
  let W := R.reverse.takeWhile isWordChar
  if W.isEmpty then none else
  if R.length < W.length + 13 then none else
  if (".permission.").data.isPrefixOf (R.drop (R.length - W.length - 12)) then
    match l.drop R.length with
    | ':' :: after2 =>
      let sp := after2.takeWhile isPySpace
      if ("granted=true").data.isPrefixOf (after2.drop sp.length) then
        some (R, R.length + 1 + sp.length + 12 - 1)
      else none
    | _ => none
  else none

/-- Matcher for `key"([^"]+)"` where `key` ends with the opening quote
(embeds the `Scheme: "..."`, `Action: "..."`, `Category: "..."` patterns
of source lines 180, 188, 189). -/
def quotedValMatcher (key : List Char) (l : List Char) : Option (List Char × Nat) :=
  if key.isPrefixOf l then
    let inner := (l.drop key.length).takeWhile (fun c => !(c = '\x22'))
    if inner.isEmpty then none
    else
      match l.drop (key.length + inner.length) with
      | '\x22' :: _ => some (inner, key.length + inner.length + 1 - 1)
      | _ => none
  else none

/-- Lowercase-hex character class `[a-f0-9]`. -/
def isHexLower (c : Char) : Bool := c.isDigit || ('a' ≤ c && c ≤ 'f')

/-- Index of the last occurrence of a character. -/
def lastIndexOfChar (ch : Char) : List Char -> Option Nat
  | [] => none
  | c :: rest =>
    match lastIndexOfChar ch rest with
    | some i => some (i + 1)
    | none => if c = ch then some 0 else none

/-- Matcher for `Provider\{[a-f0-9]+\s+([^\s]+)\}` (source line 184):
the greedy `[^\s]+` backtracks to the last `}` inside the non-space run. -/
def providerMatcher (l : List Char) : Option (List Char × Nat) :=
  if ("Provider\x7b").data.isPrefixOf l then
    let afterKey := l.drop 9
    let hex := afterKey.takeWhile isHexLower
    if hex.isEmpty then none else
    let afterHex := afterKey.drop hex.length
    let sp := afterHex.takeWhile isPySpace
    if sp.isEmpty then none else
    let M := (afterHex.drop sp.length).takeWhile (fun c => !isPySpace c)
    match lastIndexOfChar '\x7d' M with
    | some j =>
      if j = 0 then none
      else some (M.take j, 9 + hex.length + sp.length + j + 1 - 1)
    | none => none
  else none

/-- `versionName=([^\s]+)` (source line 149). -/
def extractVersionName (raw : List Char) : String :=
  match firstVal ("versionName=").data (fun c => !isPySpace c) raw with
  | some v => ⟨v⟩
  | none => "Unknown"

/-- `versionCode=(\d+)` (source line 152). -/
def extractVersionCode (raw : List Char) : String :=
  match firstVal ("versionCode=").data Char.isDigit raw with
  | some v => ⟨v⟩
  | none => "Unknown"

/-- `userId=(\d+)` with the `appId=` fallback (source lines 155-159). -/
def extractUserId (raw : List Char) : String :=
  match firstVal ("userId=").data Char.isDigit raw with
  | some v => ⟨v⟩
  | none =>
    if occurs ("appId=").data raw then
      match firstVal ("appId=").data Char.isDigit raw with
      | some v => ⟨v⟩
      | none => "Unknown"
    else "Unknown"

/-- `dataDir=([^\s]+)` (source line 161). -/
def extractDataDir (raw : List Char) : String :=
  match firstVal ("dataDir=").data (fun c => !isPySpace c) raw with
  | some v => ⟨v⟩
  | none => "Unknown"

/-- `"DEBUGGABLE" in raw_data or "debuggable=true" in raw_data`
(source line 164). -/
def extractDebuggable (raw : List Char) : Bool :=
  occurs ("DEBUGGABLE").data raw || occurs ("debuggable=true").data raw

/-- Group 1 of
`requested permissions:(.*?)(install permissions:|User \d|runtime permissions:)`
(source line 166). -/
def requestedPermsBlock (raw : List Char) : Option (List Char) :=
  spanAfterHeader ("requested permissions:").data reqTermPred raw

/-- Group 1 of `install permissions:(.*?)(User \d|runtime permissions:)`
(source line 173). -/
def installPermsBlock (raw : List Char) : Option (List Char) :=
  spanAfterHeader ("install permissions:").data installTermPred raw

/-- Source lines 166-170: `analysis["permissions"]`. -/
def extractPermissions (raw : List Char) : List String :=
  match requestedPermsBlock raw with
  | some blk => sortedDedup ((reFindAll reqPermMatcher blk).map (fun v => (⟨v⟩ : String)))
  | none => []

/-- Source lines 172-178: `analysis["granted_permissions"]` (the
`granted=true` matches anywhere, extended by every dotted permission
inside the install-permissions span, deduplicated and sorted). -/
def extractGranted (raw : List Char) : List String :=
  sortedDedup
    ((reFindAll grantedMatcher raw).map (fun v => (⟨v⟩ : String))
      ++ (match installPermsBlock raw with
          | some blk => (reFindAll dottedMatcher blk).map (fun v => (⟨v⟩ : String))
          | none => []))

/-- Source lines 180-182: `analysis["schemes"]` (two framework category
identifiers are filtered out). -/
def extractSchemes (raw : List Char) : List String :=
  sortedDedup
    (((reFindAll (quotedValMatcher ("Scheme: \"").data) raw).map (fun v => (⟨v⟩ : String))).filter
      (fun s => !(s = "android.intent.category.DEFAULT"
                  || s = "android.intent.category.BROWSABLE")))

/-- Source lines 184-185: `analysis["providers"]`. -/
def extractProviders (raw : List Char) : List String :=
  sortedDedup ((reFindAll providerMatcher raw).map (fun v => (⟨v⟩ : String)))

/-- Source lines 188, 191: `analysis["intent_actions"]`. -/
def extractActions (raw : List Char) : List String :=
  sortedDedup ((reFindAll (quotedValMatcher ("Action: \"").data) raw).map (fun v => (⟨v⟩ : String)))

/-- Source lines 189, 192: `analysis["intent_categories"]`. -/
def extractCategories (raw : List Char) : List String :=
  sortedDedup ((reFindAll (quotedValMatcher ("Category: \"").data) raw).map (fun v => (⟨v⟩ : String)))

/-- The `analysis` dict of `analyze_security_posture`, with the fields in
dict-insertion order (source lines 140-147). -/
structure SecurityAnalysis where
  version_name : String
  version_code : String
  user_id : String
  data_dir : String
  permissions : List String
  granted_permissions : List String
  schemes : List String
  providers : List String
  intent_actions : List String
  intent_categories : List String
  is_debuggable : Bool
  deriving DecidableEq

/-- The initial dict of source lines 140-147. -/
def defaultAnalysis : SecurityAnalysis where
  version_name := "Unknown"
  version_code := "Unknown"
  user_id := "Unknown"
  data_dir := "Unknown"
  permissions := []
  granted_permissions := []
  schemes := []
  providers := []
  intent_actions := []
  intent_categories := []
  is_debuggable := false

/-- `analyze_security_posture` (source lines 139-196): every field is
extracted by its own pattern; the function is total (the source's
`except` is unreachable for the embedded total extractors, see
`analyzeWithFault` for the fault model of that handler). -/
def analyze_security_posture (raw : List Char) : SecurityAnalysis where
  version_name := extractVersionName raw
  version_code := extractVersionCode raw
  user_id := extractUserId raw
  data_dir := extractDataDir raw
  permissions := extractPermissions raw
  granted_permissions := extractGranted raw
  schemes := extractSchemes raw
  providers := extractProviders raw
  intent_actions := extractActions raw
  intent_categories := extractCategories raw
  is_debuggable := extractDebuggable raw

/-- The successive extraction statements inside the `try` of
`analyze_security_posture`, in source order: step 0 sets `version_name`
(line 149), 1 `version_code` (152), 2 `user_id` (155-159), 3 `data_dir`
(161), 4 `is_debuggable` (164), 5 `permissions` (166-170),
6 `granted_permissions` (172-178), 7 `schemes` (180-182), 8 `providers`
(184-185), 9 `intent_actions` (191), 10 `intent_categories` (192). -/
def anStep (raw : List Char) : Nat -> SecurityAnalysis -> SecurityAnalysis
  | 0, a => { a with version_name := extractVersionName raw }
  | 1, a => { a with version_code := extractVersionCode raw }
  | 2, a => { a with user_id := extractUserId raw }
  | 3, a => { a with data_dir := extractDataDir raw }
  | 4, a => { a with is_debuggable := extractDebuggable raw }
  | 5, a => { a with permissions := extractPermissions raw }
  | 6, a => { a with granted_permissions := extractGranted raw }
  | 7, a => { a with schemes := extractSchemes raw }
  | 8, a => { a with providers := extractProviders raw }
  | 9, a => { a with intent_actions := extractActions raw }
  | 10, a => { a with intent_categories := extractCategories raw }
  | _, a => a

/-- The dict after the first `k` extraction statements have run. -/
def analyzeUpTo (raw : List Char) : Nat -> SecurityAnalysis
  | 0 => defaultAnalysis
  | k + 1 => anStep raw k (analyzeUpTo raw k)

/-- Fault model of the single `try/except` wrapping all extractions
(source lines 148, 194-196): if the extraction statement with index `k`
raises, the statements before it have already mutated the dict, the
statements from `k` on never run, and the `except` swallows the error
and the partial dict is returned. -/
def analyzeWithFault (raw : List Char) : Option Nat -> SecurityAnalysis
  | none => analyzeUpTo raw 11
  | some k => analyzeUpTo raw k

theorem analyze_eq_upTo (raw : List Char) :
    analyze_security_posture raw = analyzeUpTo raw 11 := rfl

theorem analyzeUpTo_ge (raw : List Char) (n : Nat) :
    analyzeUpTo raw (n + 11) = analyzeUpTo raw 11 := by
  induction n with
  | zero => rfl
  | succ m ih =>
    have : m + 1 + 11 = (m + 11) + 1 := by omega
    rw [this]
    show anStep raw (m + 11) (analyzeUpTo raw (m + 11)) = _
    rw [ih]
    rfl

/-! ## `parse_ls_output` (source lines 198-230) -/

/-- Python `s.split(sep)` for a one-character separator (keeps empty
chunks). -/
def splitOnChar (sep : Char) : List Char -> List (List Char)
  | [] => [[]]
  | c :: rest =>
    if c = sep then [] :: splitOnChar sep rest
    else
      match splitOnChar sep rest with
      | g :: gs => (c :: g) :: gs
      | [] => [[c]]

/-- Python `str.strip()` (ASCII whitespace). -/
def pyStrip (l : List Char) : List Char :=
  ((l.dropWhile isPySpace).reverse.dropWhile isPySpace).reverse

/-- Python `str.split()` with no argument: whitespace-delimited fields,
empty fields dropped.  `fuel = length` makes the recursion structural and
never runs out (every step consumes at least one character). -/
def pyFieldsGo : Nat -> List Char -> List (List Char)
  | _, [] => []
  | 0, _ :: _ => []
  | fuel + 1, c :: rest =>
    if isPySpace c then pyFieldsGo fuel rest
    else (c :: rest.takeWhile (fun x => !isPySpace x))
      :: pyFieldsGo fuel (rest.dropWhile (fun x => !isPySpace x))

/-- Python `str.split()` with no argument. -/
def pyFields (l : List Char) : List (List Char) := pyFieldsGo l.length l

/-- `re.match(r"\d{4}-\d{2}-\d{2}", p)`: anchored at the start of the
token, extra characters after the ten matched ones are allowed. -/
def isDateToken (t : List Char) : Bool :=
  match t with
  | d1 :: d2 :: d3 :: d4 :: h1 :: d5 :: d6 :: h2 :: d7 :: d8 :: _ =>
    d1.isDigit && d2.isDigit && d3.isDigit && d4.isDigit && h1 = '-'
      && d5.isDigit && d6.isDigit && h2 = '-' && d7.isDigit && d8.isDigit
  | _ => false

/-- One entry of the `files` list built by `parse_ls_output`
(dict-insertion order of source lines 219-226). -/
structure FileEntry where
  name : String
  type : String
  size : String
  date : String
  perms : String
  raw : String
  deriving DecidableEq

/-- The per-line body of `parse_ls_output`'s loop (source lines 202-226)
on an already-stripped line: `none` for skipped lines — blank lines,
`total ` summary lines, lines with fewer than 7 fields, lines with no
date-shaped token, and lines where `parts[date_idx+1]` would raise
`IndexError` (caught by the bare `except`).  Note Python's `parts[date_idx-1]`
is `parts[-1]`, the last token, when the date token comes first. -/
def entryOfLine (line : List Char) : Option FileEntry :=
  if line.isEmpty then none
  else if ("total ").data.isPrefixOf line then none
  else
    let parts := pyFields line
    if parts.length < 7 then none
    else
      match parts.findIdx? isDateToken with
      | none => none
      | some i =>
        match parts[i + 1]? with
        | none => none
        | some timeTok =>
          let perms := parts.headD []
          let size := if i = 0 then (parts.getLast?).getD [] else (parts[i - 1]?).getD []
          some {
            name := ⟨List.intercalate [' '] (parts.drop (i + 2))⟩
            type := if perms.head? = some 'd' then "dir"
                    else if perms.head? = some 'l' then "link" else "file"
            size := ⟨size⟩
            date := ⟨(parts[i]?).getD [] ++ ' ' :: timeTok⟩
            perms := ⟨perms⟩
            raw := ⟨line⟩ }

/-- `parse_ls_output` (source lines 198-230). -/
def parse_ls_output (output : List Char) : List FileEntry :=
  (splitOnChar '\n' output).filterMap (fun line => entryOfLine (pyStrip line))

/-! ## Claim C8 -/

/-- C8: `parse_ls_output` on the single line
`-rw-rw---- 1 u0_a123 sdcard_rw 1024 2023-05-01 10:00 my file.txt`
returns exactly one entry of kind `file` (the spec's `regular`), size
`"1024"`, modified `"2023-05-01 10:00"` and name `"my file.txt"`; and in
general, for every line whose date token is located at position `i` —
with a token before it (`0 < i`, so that "the token immediately
preceding the date" exists) and a token after it (`i + 1 < |parts|`, so
that the line is not skipped by the caught `IndexError`) — the produced
entry's size is the token at `i - 1`, its modified field is the date
token joined with the following token, and its name is the remaining
tokens rejoined with single spaces. -/
theorem c8_ls_line_fields :
    parse_ls_output ("-rw-rw---- 1 u0_a123 sdcard_rw 1024 2023-05-01 10:00 my file.txt").data
      = [(⟨"my file.txt", "file", "1024", "2023-05-01 10:00", "-rw-rw----",
          "-rw-rw---- 1 u0_a123 sdcard_rw 1024 2023-05-01 10:00 my file.txt"⟩ : FileEntry)]
    ∧ ∀ (line : List Char) (i : Nat) (e : FileEntry),
        entryOfLine line = some e →
        (pyFields line).findIdx? isDateToken = some i →
        0 < i → i + 1 < (pyFields line).length →
        e.size = ⟨((pyFields line)[i - 1]?).getD []⟩
        ∧ e.date = ⟨((pyFields line)[i]?).getD [] ++ ' ' :: ((pyFields line)[i + 1]?).getD []⟩
        ∧ e.name = ⟨List.intercalate [' '] ((pyFields line).drop (i + 2))⟩ := by
  constructor
  · decide
  · intro line i e he hi h0 hlen
    have hi0 : ¬(i = 0) := by omega
    obtain ⟨timeTok, ht⟩ : ∃ t, (pyFields line)[i + 1]? = some t := by
      rw [List.getElem?_eq_getElem hlen]
      exact ⟨_, rfl⟩
    by_cases h1 : line.isEmpty
    · simp [entryOfLine, h1] at he
    by_cases h2 : ("total ").data.isPrefixOf line
    · simp [entryOfLine, h1, h2] at he
    by_cases h3 : (pyFields line).length < 7
    · simp [entryOfLine, h1, h2, h3] at he
    simp only [entryOfLine, h1, h2, h3, hi, ht, hi0, Bool.false_eq_true, if_false,
      Option.some.injEq] at he
    subst he
    refine ⟨rfl, ?_, rfl⟩
    simp [ht]

/-- Witness for the universal part of C8, at the scenario line
(`i = 5`). -/
theorem c8_ls_line_fields_witness :
    ((⟨"my file.txt", "file", "1024", "2023-05-01 10:00", "-rw-rw----",
        "-rw-rw---- 1 u0_a123 sdcard_rw 1024 2023-05-01 10:00 my file.txt"⟩ : FileEntry)).size
      = ⟨((pyFields ("-rw-rw---- 1 u0_a123 sdcard_rw 1024 2023-05-01 10:00 my file.txt").data)[5 - 1]?).getD []⟩
    ∧ ((⟨"my file.txt", "file", "1024", "2023-05-01 10:00", "-rw-rw----",
        "-rw-rw---- 1 u0_a123 sdcard_rw 1024 2023-05-01 10:00 my file.txt"⟩ : FileEntry)).date
      = ⟨((pyFields ("-rw-rw---- 1 u0_a123 sdcard_rw 1024 2023-05-01 10:00 my file.txt").data)[5]?).getD []
          ++ ' ' :: ((pyFields ("-rw-rw---- 1 u0_a123 sdcard_rw 1024 2023-05-01 10:00 my file.txt").data)[5 + 1]?).getD []⟩
    ∧ ((⟨"my file.txt", "file", "1024", "2023-05-01 10:00", "-rw-rw----",
        "-rw-rw---- 1 u0_a123 sdcard_rw 1024 2023-05-01 10:00 my file.txt"⟩ : FileEntry)).name
      = ⟨List.intercalate [' ']
          ((pyFields ("-rw-rw---- 1 u0_a123 sdcard_rw 1024 2023-05-01 10:00 my file.txt").data).drop (5 + 2))⟩ :=
  c8_ls_line_fields.2
    ("-rw-rw---- 1 u0_a123 sdcard_rw 1024 2023-05-01 10:00 my file.txt").data 5
    ((⟨"my file.txt", "file", "1024", "2023-05-01 10:00", "-rw-rw----",
      "-rw-rw---- 1 u0_a123 sdcard_rw 1024 2023-05-01 10:00 my file.txt"⟩ : FileEntry))
    (by decide) (by decide) (by decide) (by decide)

/-! ## Claims C3 and C10 -/

theorem reqComBranch_takes (l v : List Char) (n : Nat)
    (h : reqComBranch l = some (v, n)) : v <+: l := by
  unfold reqComBranch at h
  by_cases hc : ("com.").data.isPrefixOf l
  · simp only [hc, if_true] at h
    cases hs : largestSplit ((l.drop 4).takeWhile isDotWord)
        ((l.drop 4).takeWhile isDotWord).length with
    | none => rw [hs] at h; simp at h
    | some i =>
      rw [hs] at h
      simp only [Option.some.injEq, Prod.mk.injEq] at h
      rw [← h.1]
      exact take_isPre _ l
  · simp [hc] at h

theorem reqPermMatcher_takes (l v : List Char) (n : Nat)
    (h : reqPermMatcher l = some (v, n)) : v <+: l := by
  unfold reqPermMatcher at h
  by_cases ha : ("android.permission.").data.isPrefixOf l
  · simp only [ha, if_true] at h
    by_cases hw : ((l.drop 19).takeWhile isWordChar).isEmpty
    · simp only [hw, if_true] at h
      exact reqComBranch_takes l v n h
    · simp only [hw, Bool.false_eq_true, if_false, Option.some.injEq, Prod.mk.injEq] at h
      rw [← h.1]
      exact take_isPre _ l
  · simp only [ha, Bool.false_eq_true, if_false] at h
    exact reqComBranch_takes l v n h

/-- C3: `requestedPermissions` is populated only from the span between
the `requested permissions:` header and the earliest following
terminator header (`requestedPermsBlock`): every permission string in
the result occurs inside that span, so a permission-shaped identifier
whose occurrences all lie outside the span is never included. -/
theorem c3_permissions_scoped_to_span (raw : List Char) (p : String)
    (hp : p ∈ (analyze_security_posture raw).permissions) :
    ∃ blk, requestedPermsBlock raw = some blk ∧ p.data <:+: blk := by
  have hp' : p ∈ extractPermissions raw := hp
  unfold extractPermissions at hp'
  cases hb : requestedPermsBlock raw with
  | none => rw [hb] at hp'; simp at hp'
  | some blk =>
    rw [hb] at hp'
    refine ⟨blk, rfl, ?_⟩
    obtain ⟨v, hv, rfl⟩ := List.mem_map.mp (mem_sortedDedup hp')
    exact reFindAll_matches_within reqPermMatcher
      (fun l w n h => reqPermMatcher_takes l w n h) blk v hv

/-- Witness for C3 at a dump whose span contains one permission. -/
theorem c3_permissions_scoped_to_span_witness :
    ∃ blk, requestedPermsBlock
        ("requested permissions:\n  android.permission.CAMERA\ninstall permissions:\n").data
      = some blk
    ∧ ("android.permission.CAMERA").data <:+: blk :=
  c3_permissions_scoped_to_span
    ("requested permissions:\n  android.permission.CAMERA\ninstall permissions:\n").data
    "android.permission.CAMERA" (by decide)

/-- C10: if the input contains a `requested permissions:` header but no
terminator (`install permissions:`, `User ` followed by a digit, or
`runtime permissions:`) matches anywhere after the first header
occurrence, the span regex never matches and `permissions` stays empty —
end-of-text is not accepted as a terminator.  The second conjunct shows
this on a concrete dump that lists a permission under the header. -/
theorem c10_span_requires_terminator :
    (∀ raw : List Char,
      occurs ("requested permissions:").data raw = true →
      (afterFirst ("requested permissions:").data raw).bind (firstMatchPos reqTermPred) = none →
      requestedPermsBlock raw = none
      ∧ (analyze_security_posture raw).permissions = [])
    ∧ (analyze_security_posture
        ("requested permissions:\n  android.permission.INTERNET\n").data).permissions = []
    ∧ requestedPermsBlock ("requested permissions:\n  android.permission.INTERNET\n").data
      = none := by
  refine ⟨?_, by decide, by decide⟩
  intro raw hhdr hterm
  cases ha : afterFirst ("requested permissions:").data raw with
  | none =>
    exfalso
    have := (afterFirst_isSome_iff ("requested permissions:").data raw).mpr hhdr
    rw [ha] at this
    simp at this
  | some tail =>
    rw [ha] at hterm
    rw [show (some tail).bind (firstMatchPos reqTermPred)
          = firstMatchPos reqTermPred tail from rfl] at hterm
    have hblock : requestedPermsBlock raw = none := by
      unfold requestedPermsBlock spanAfterHeader
      rw [ha]
      show (match firstMatchPos reqTermPred tail with
            | none => none
            | some i => some (tail.take i)) = none
      rw [hterm]
    refine ⟨hblock, ?_⟩
    show extractPermissions raw = []
    unfold extractPermissions
    rw [hblock]

/-- Witness for the universal part of C10, at the concrete dump. -/
theorem c10_span_requires_terminator_witness :
    requestedPermsBlock ("requested permissions:\n  android.permission.INTERNET\nno end").data = none
    ∧ (analyze_security_posture
        ("requested permissions:\n  android.permission.INTERNET\nno end").data).permissions = [] :=
  c10_span_requires_terminator.1
    ("requested permissions:\n  android.permission.INTERNET\nno end").data
    (by decide) (by decide)

/-! ## Claim C6 -/

theorem occurs_of_contains_at {key x l : List Char}
    (hp : key.isPrefixOf x = true) (hx : x <:+: l) : occurs key l = true := by
  rw [occurs_spec]
  exact (isPrefixOf_iff.mp hp).isInfix.trans hx

theorem firstVal_eq_none_of_not_occurs (key : List Char) (p : Char -> Bool)
    (l : List Char) (h : occurs key l = false) : firstVal key p l = none := by
  induction l with
  | nil => rfl
  | cons c rest ih =>
    rw [occurs, Bool.or_eq_false_iff] at h
    unfold firstVal
    rw [h.1]
    simp [ih h.2]

theorem afterFirst_eq_none {sep l : List Char} (h : occurs sep l = false) :
    afterFirst sep l = none := by
  cases haf : afterFirst sep l with
  | none => rfl
  | some t =>
    exfalso
    have hs : (afterFirst sep l).isSome = true := by rw [haf]; rfl
    rw [(afterFirst_isSome_iff sep l).mp hs] at h
    exact Bool.noConfusion h

theorem reFindAllGo_eq_nil {a : Type} (m : List Char -> Option (a × Nat)) :
    ∀ (fuel : Nat) (l : List Char), (∀ l', l' <:+ l -> m l' = none) ->
      reFindAllGo m fuel l = [] := by
  intro fuel
  induction fuel with
  | zero => intro l h; cases l <;> simp [reFindAllGo]
  | succ fuel ih =>
    intro l h
    cases l with
    | nil => simp [reFindAllGo]
    | cons c rest =>
      show (match m (c :: rest) with
            | some (v, n) => v :: reFindAllGo m fuel ((c :: rest).drop (n + 1))
            | none => reFindAllGo m fuel rest) = []
      rw [h (c :: rest) (List.suffix_refl _)]
      exact ih rest (fun l' hl' => h l' (hl'.trans (List.suffix_cons c rest)))

theorem reFindAll_eq_nil {a : Type} (m : List Char -> Option (a × Nat))
    (l : List Char) (h : ∀ l', l' <:+ l -> m l' = none) : reFindAll m l = [] :=
  reFindAllGo_eq_nil m l.length l h

theorem quotedValMatcher_none {key l' l : List Char} (hs : l' <:+: l)
    (h : occurs key l = false) : quotedValMatcher key l' = none := by
  have hp : key.isPrefixOf l' = false := by
    by_contra hc
    rw [Bool.not_eq_false] at hc
    rw [occurs_of_contains_at hc hs] at h
    exact Bool.noConfusion h
  simp [quotedValMatcher, hp]

theorem providerMatcher_none {l' l : List Char} (hs : l' <:+: l)
    (h : occurs ("Provider\x7b").data l = false) : providerMatcher l' = none := by
  have hp : ("Provider\x7b").data.isPrefixOf l' = false := by
    by_contra hc
    rw [Bool.not_eq_false] at hc
    rw [occurs_of_contains_at hc hs] at h
    exact Bool.noConfusion h
  simp [providerMatcher, hp]

theorem grantedMatcher_none {l' l : List Char} (hs : l' <:+: l)
    (h : occurs (".permission.").data l = false) : grantedMatcher l' = none := by
  have hkey : (".permission.").data.isPrefixOf
      ((l'.takeWhile isDotWord).drop
        ((l'.takeWhile isDotWord).length
          - ((l'.takeWhile isDotWord).reverse.takeWhile isWordChar).length - 12)) = false := by
    by_contra hc
    rw [Bool.not_eq_false] at hc
    have hinf : ((l'.takeWhile isDotWord).drop
        ((l'.takeWhile isDotWord).length
          - ((l'.takeWhile isDotWord).reverse.takeWhile isWordChar).length - 12)) <:+: l :=
      ((List.drop_suffix _ _).isInfix.trans
        (takeWhile_isPre _ _).isInfix).trans hs
    rw [occurs_of_contains_at hc hinf] at h
    exact Bool.noConfusion h
  simp [grantedMatcher, hkey]

/-- C6 (amended): for every package-dump text containing none of the
identity markers (`versionName=`, `versionCode=`, `userId=`, `appId=`,
`dataDir=`) and none of the permission/scheme/provider/intent markers
the function scans for, `analyze_security_posture` returns the
default-initialized dict (identity fields `"Unknown"`, every list
empty) — and, being total, never raises; in particular, for text
containing `versionName=2.3.1` and no `versionCode` marker, the result
has `version_name = "2.3.1"` and `version_code = "Unknown"`. -/
theorem c6_missing_markers_defaults :
    (∀ raw : List Char,
      occurs ("versionName=").data raw = false →
      occurs ("versionCode=").data raw = false →
      occurs ("userId=").data raw = false →
      occurs ("appId=").data raw = false →
      occurs ("dataDir=").data raw = false →
      occurs ("requested permissions:").data raw = false →
      occurs ("install permissions:").data raw = false →
      occurs (".permission.").data raw = false →
      occurs ("Scheme: \"").data raw = false →
      occurs ("Provider\x7b").data raw = false →
      occurs ("Action: \"").data raw = false →
      occurs ("Category: \"").data raw = false →
      analyze_security_posture raw
        = { defaultAnalysis with is_debuggable := extractDebuggable raw })
    ∧ (analyze_security_posture ("versionName=2.3.1\n").data).version_name = "2.3.1"
    ∧ (analyze_security_posture ("versionName=2.3.1\n").data).version_code = "Unknown" := by
  refine ⟨?_, by decide, by decide⟩
  intro raw h1 h2 h3 h4 h5 h6 h7 h8 h9 h10 h11 h12
  have e1 : extractVersionName raw = "Unknown" := by
    unfold extractVersionName
    rw [firstVal_eq_none_of_not_occurs _ _ _ h1]
  have e2 : extractVersionCode raw = "Unknown" := by
    unfold extractVersionCode
    rw [firstVal_eq_none_of_not_occurs _ _ _ h2]
  have e3 : extractUserId raw = "Unknown" := by
    unfold extractUserId
    rw [firstVal_eq_none_of_not_occurs _ _ _ h3, h4]
    rfl
  have e4 : extractDataDir raw = "Unknown" := by
    unfold extractDataDir
    rw [firstVal_eq_none_of_not_occurs _ _ _ h5]
  have e5 : extractPermissions raw = [] := by
    unfold extractPermissions requestedPermsBlock spanAfterHeader
    rw [afterFirst_eq_none h6]
  have e6 : extractGranted raw = [] := by
    unfold extractGranted installPermsBlock spanAfterHeader
    rw [afterFirst_eq_none h7,
      reFindAll_eq_nil grantedMatcher raw
        (fun l' hl' => grantedMatcher_none hl'.isInfix h8)]
    rfl
  have e7 : extractSchemes raw = [] := by
    unfold extractSchemes
    rw [reFindAll_eq_nil _ raw (fun l' hl' => quotedValMatcher_none hl'.isInfix h9)]
    rfl
  have e8 : extractProviders raw = [] := by
    unfold extractProviders
    rw [reFindAll_eq_nil _ raw (fun l' hl' => providerMatcher_none hl'.isInfix h10)]
    rfl
  have e9 : extractActions raw = [] := by
    unfold extractActions
    rw [reFindAll_eq_nil _ raw (fun l' hl' => quotedValMatcher_none hl'.isInfix h11)]
    rfl
  have e10 : extractCategories raw = [] := by
    unfold extractCategories
    rw [reFindAll_eq_nil _ raw (fun l' hl' => quotedValMatcher_none hl'.isInfix h12)]
    rfl
  unfold analyze_security_posture
  rw [e1, e2, e3, e4, e5, e6, e7, e8, e9, e10]
  rfl

/-- Witness for C6's universal part at a marker-free text. -/
theorem c6_missing_markers_defaults_witness :
    analyze_security_posture ("Activity Resolver Table: nothing here\n").data
      = { defaultAnalysis with
          is_debuggable := extractDebuggable ("Activity Resolver Table: nothing here\n").data } :=
  c6_missing_markers_defaults.1 ("Activity Resolver Table: nothing here\n").data
    (by decide) (by decide) (by decide) (by decide) (by decide) (by decide)
    (by decide) (by decide) (by decide) (by decide) (by decide) (by decide)

/-- C6 (counterexample to the claim as stated): the text
`Scheme: "custom"` contains none of the identity markers, yet the
schemes list is not empty — the "every set empty" conclusion of the
claim does not follow from missing identity markers alone. -/
theorem c6_counterexample :
    occurs ("versionName=").data ("Scheme: \"custom\"\n").data = false
    ∧ occurs ("versionCode=").data ("Scheme: \"custom\"\n").data = false
    ∧ occurs ("userId=").data ("Scheme: \"custom\"\n").data = false
    ∧ occurs ("appId=").data ("Scheme: \"custom\"\n").data = false
    ∧ occurs ("dataDir=").data ("Scheme: \"custom\"\n").data = false
    ∧ (analyze_security_posture ("Scheme: \"custom\"\n").data).schemes = ["custom"]
    ∧ (analyze_security_posture ("Scheme: \"custom\"\n").data).schemes ≠ [] := by
  decide

/-! ## Claim C7 -/

/-- C7 (counterexample): the claim says an internal error in a single
field's extraction degrades only that one field.  In the fault model of
the source's single `try/except` (`analyzeWithFault`), a fault in step 0
(the `version_name` extraction) also degrades `version_code` — a
different field — to `"Unknown"` on an input where the no-fault analysis
extracts `"7"`. -/
theorem c7_counterexample :
    (analyzeWithFault ("versionName=1.0 versionCode=7").data (some 0)).version_code = "Unknown"
    ∧ (analyze_security_posture ("versionName=1.0 versionCode=7").data).version_code = "7"
    ∧ occurs ("versionCode=").data ("versionName=1.0 versionCode=7").data = true := by
  decide

/-- C7 (amended): the source wraps all extraction statements in one
`try/except`, so an internal error at extraction step `k` leaves the
fields of the steps before `k` populated exactly as in the fault-free
run and every field from step `k` on at its declared default; the
partially-filled record is still returned (the handler swallows the
error, the function never raises). -/
theorem c7_single_handler_cutoff (raw : List Char) (k : Nat) :
    (analyzeWithFault raw (some k)).version_name
      = (if 0 < k then (analyze_security_posture raw).version_name
         else defaultAnalysis.version_name)
    ∧ (analyzeWithFault raw (some k)).version_code
      = (if 1 < k then (analyze_security_posture raw).version_code
         else defaultAnalysis.version_code)
    ∧ (analyzeWithFault raw (some k)).user_id
      = (if 2 < k then (analyze_security_posture raw).user_id
         else defaultAnalysis.user_id)
    ∧ (analyzeWithFault raw (some k)).data_dir
      = (if 3 < k then (analyze_security_posture raw).data_dir
         else defaultAnalysis.data_dir)
    ∧ (analyzeWithFault raw (some k)).is_debuggable
      = (if 4 < k then (analyze_security_posture raw).is_debuggable
         else defaultAnalysis.is_debuggable)
    ∧ (analyzeWithFault raw (some k)).permissions
      = (if 5 < k then (analyze_security_posture raw).permissions
         else defaultAnalysis.permissions)
    ∧ (analyzeWithFault raw (some k)).granted_permissions
      = (if 6 < k then (analyze_security_posture raw).granted_permissions
         else defaultAnalysis.granted_permissions)
    ∧ (analyzeWithFault raw (some k)).schemes
      = (if 7 < k then (analyze_security_posture raw).schemes
         else defaultAnalysis.schemes)
    ∧ (analyzeWithFault raw (some k)).providers
      = (if 8 < k then (analyze_security_posture raw).providers
         else defaultAnalysis.providers)
    ∧ (analyzeWithFault raw (some k)).intent_actions
      = (if 9 < k then (analyze_security_posture raw).intent_actions
         else defaultAnalysis.intent_actions)
    ∧ (analyzeWithFault raw (some k)).intent_categories
      = (if 10 < k then (analyze_security_posture raw).intent_categories
         else defaultAnalysis.intent_categories) := by
  rcases k with _|_|_|_|_|_|_|_|_|_|_|n
  case succ.succ.succ.succ.succ.succ.succ.succ.succ.succ.succ =>
    rw [show analyzeWithFault raw (some (n + 11)) = analyzeUpTo raw (n + 11) from rfl,
      analyzeUpTo_ge raw n]
    refine ⟨?_, ?_, ?_, ?_, ?_, ?_, ?_, ?_, ?_, ?_, ?_⟩ <;> (rw [if_pos (by omega)]; rfl)
  all_goals exact ⟨rfl, rfl, rfl, rfl, rfl, rfl, rfl, rfl, rfl, rfl, rfl⟩

end Auditor
